import Mathlib

/-!
Verification of the black-background removal tool (`batch_bg_removal.py`).

The embedding models:
- a `Pixel` as a 3-channel (RGB) or 4-channel (RGBA) tuple of natural-number
  intensities, exactly the two shapes `is_black_background` accepts;
- `BackgroundRemover` as the configuration object holding `threshold` and
  `tolerance` (Python defaults 30 and 10);
- the pure pixel transform inside `remove_black_background`: convert the image
  to RGBA (appending alpha 255 to RGB pixels, as PIL's `convert('RGBA')` does),
  then set the alpha of every pixel classified by `is_black_background` to 0;
- the file/batch layer (`batch_remove_background`) over an abstract filesystem:
  a boolean for existence of the input root, a list of candidate file names for
  the glob, an oracle `proc` giving each file's processing outcome, and an
  explicit effect trace recording the creation of the output directory and each
  per-file processing attempt.
-/

/-- A pixel as consumed by `is_black_background`: either an RGB triple or an
RGBA quadruple of channel intensities. -/
inductive Pixel where
  | rgb (r g b : Nat)
  | rgba (r g b a : Nat)
deriving DecidableEq, Repr

/-- First channel (red) of a pixel. -/
def Pixel.r : Pixel → Nat
  | .rgb r _ _ => r
  | .rgba r _ _ _ => r

/-- Second channel (green) of a pixel. -/
def Pixel.g : Pixel → Nat
  | .rgb _ g _ => g
  | .rgba _ g _ _ => g

/-- Third channel (blue) of a pixel. -/
def Pixel.b : Pixel → Nat
  | .rgb _ _ b => b
  | .rgba _ _ b _ => b

/-- Whether the pixel carries a transparency channel (is 4-channel). -/
def Pixel.hasAlpha : Pixel → Bool
  | .rgb _ _ _ => false
  | .rgba _ _ _ _ => true

/-- Whether the pixel is 4-channel with transparency channel equal to 0. -/
def Pixel.isFullyTransparent : Pixel → Bool
  | .rgb _ _ _ => false
  | .rgba _ _ _ a => decide (a = 0)

/-- The configuration object of the `BackgroundRemover` class: a black
threshold (default 30) and a tolerance field (default 10). -/
structure BackgroundRemover where
  threshold : Nat := 30
  tolerance : Nat := 10
deriving DecidableEq, Repr

/-- `BackgroundRemover.is_black_background`: for a 4-channel pixel whose alpha
is 0, return `True` at once; otherwise return whether each of the first three
channels is at most `self.threshold`. -/
def BackgroundRemover.is_black_background (self : BackgroundRemover) (pixel : Pixel) : Bool :=
  match pixel with
  | .rgba r g b a =>
      if a = 0 then true
      else decide (r ≤ self.threshold) && decide (g ≤ self.threshold) &&
        decide (b ≤ self.threshold)
  | .rgb r g b =>
      decide (r ≤ self.threshold) && decide (g ≤ self.threshold) &&
        decide (b ≤ self.threshold)

/-- `img.convert('RGBA')` at the pixel level: an RGB pixel gains an alpha
channel at its maximum value 255; an RGBA pixel is unchanged. -/
def toRGBA : Pixel → Pixel
  | .rgb r g b => .rgba r g b 255
  | .rgba r g b a => .rgba r g b a

/-- Setting the transparency channel of a pixel to 0
(`alpha_channel[y, x] = 0`). -/
def setTransparent : Pixel → Pixel
  | .rgb r g b => .rgb r g b
  | .rgba r g b _ => .rgba r g b 0

/-- The per-pixel body of the loop in `remove_black_background`: pixels
classified as black background get alpha 0, others are left unchanged. -/
def maskPixel (self : BackgroundRemover) (p : Pixel) : Pixel :=
  if self.is_black_background p then setTransparent p else p

/-- The image-wide RGBA conversion step of `remove_black_background`. -/
def convertRGBA (img : List (List Pixel)) : List (List Pixel) :=
  img.map (List.map toRGBA)

/-- The image-wide masking loop of `remove_black_background`. -/
def applyAlphaMask (self : BackgroundRemover) (img : List (List Pixel)) : List (List Pixel) :=
  img.map (List.map (maskPixel self))

/-- The pure image transform performed by `remove_black_background`: convert to
RGBA, then zero the alpha of every classified pixel. -/
def BackgroundRemover.transform (self : BackgroundRemover) (img : List (List Pixel)) :
    List (List Pixel) :=
  applyAlphaMask self (convertRGBA img)

/-- The pixel of an image at row `i`, column `j`, when present. -/
def pixelAt (img : List (List Pixel)) (i j : Nat) : Option Pixel :=
  (img.get? i).bind (fun row => row.get? j)

/-- Claim C1: `is_black_background` returns true on a 4-channel pixel whose
transparency channel is 0, and otherwise returns true exactly when each of the
first three channels is at most the threshold; it returns a boolean for every
3- or 4-channel pixel. -/
theorem classify_characterization (cfg : BackgroundRemover) (p : Pixel) :
    cfg.is_black_background p =
      (p.isFullyTransparent ||
        (decide (p.r ≤ cfg.threshold) && decide (p.g ≤ cfg.threshold) &&
          decide (p.b ≤ cfg.threshold))) := by
  cases p with
  | rgb r g b =>
      simp [BackgroundRemover.is_black_background, Pixel.isFullyTransparent,
        Pixel.r, Pixel.g, Pixel.b]
  | rgba r g b a =>
      by_cases h : a = 0 <;>
        simp [BackgroundRemover.is_black_background, Pixel.isFullyTransparent,
          Pixel.r, Pixel.g, Pixel.b, h]

/-- Indexing commutes with a pixelwise map over the whole image. -/
theorem pixelAt_map (f : Pixel → Pixel) (img : List (List Pixel)) (i j : Nat) :
    pixelAt (img.map (List.map f)) i j = (pixelAt img i j).map f := by
  unfold pixelAt
  rw [List.get?_map]
  cases img.get? i with
  | none => rfl
  | some row => simp [List.get?_map]

/-- The transform seen at one pixel position: upgrade to RGBA, then mask. -/
theorem pixelAt_transform (cfg : BackgroundRemover) (img : List (List Pixel)) (i j : Nat) :
    pixelAt (cfg.transform img) i j =
      (pixelAt img i j).map (fun p => maskPixel cfg (toRGBA p)) := by
  unfold BackgroundRemover.transform applyAlphaMask convertRGBA
  rw [pixelAt_map, pixelAt_map, Option.map_map]
  rfl

/-- A masked upgraded pixel always carries a transparency channel. -/
theorem maskPixel_toRGBA_hasAlpha (cfg : BackgroundRemover) (p : Pixel) :
    (maskPixel cfg (toRGBA p)).hasAlpha = true := by
  cases p <;>
    · unfold maskPixel
      split <;> simp [toRGBA, setTransparent, Pixel.hasAlpha]

/-- Masking the upgraded pixel never changes the first three channels. -/
theorem maskPixel_toRGBA_rgb_channels (cfg : BackgroundRemover) (p : Pixel) :
    (maskPixel cfg (toRGBA p)).r = p.r ∧ (maskPixel cfg (toRGBA p)).g = p.g ∧
      (maskPixel cfg (toRGBA p)).b = p.b := by
  cases p <;>
    · unfold maskPixel
      split <;> simp [toRGBA, setTransparent, Pixel.r, Pixel.g, Pixel.b]

/-- Claim C2: `transform` keeps the height (row count) and the length of every
row, leaves an image whose every pixel is 4-channel, sends the pixel at each
position to the masked upgrade of the input pixel (alpha set to 0 when
classified, otherwise the upgraded pixel unchanged, an RGB pixel being upgraded
with alpha 255), and never modifies the first three channels. -/
theorem transform_spec (cfg : BackgroundRemover) (img : List (List Pixel)) (i j : Nat) :
    (cfg.transform img).length = img.length ∧
    ((cfg.transform img).get? i).map List.length = (img.get? i).map List.length ∧
    pixelAt (cfg.transform img) i j =
      (pixelAt img i j).map (fun p =>
        if cfg.is_black_background (toRGBA p) then setTransparent (toRGBA p) else toRGBA p) ∧
    Option.all Pixel.hasAlpha (pixelAt (cfg.transform img) i j) = true ∧
    (pixelAt (cfg.transform img) i j).map (fun q => (q.r, q.g, q.b)) =
      (pixelAt img i j).map (fun p => (p.r, p.g, p.b)) := by
  refine ⟨?_, ?_, ?_, ?_, ?_⟩
  · simp [BackgroundRemover.transform, applyAlphaMask, convertRGBA]
  · simp only [BackgroundRemover.transform, applyAlphaMask, convertRGBA, List.get?_map]
    cases img.get? i with
    | none => rfl
    | some row => simp
  · rw [pixelAt_transform]
    rfl
  · rw [pixelAt_transform]
    cases hp : pixelAt img i j with
    | none => rfl
    | some p => simp [maskPixel_toRGBA_hasAlpha]
  · rw [pixelAt_transform]
    cases hp : pixelAt img i j with
    | none => rfl
    | some p => simp [maskPixel_toRGBA_rgb_channels cfg p |>.1,
        (maskPixel_toRGBA_rgb_channels cfg p).2.1, (maskPixel_toRGBA_rgb_channels cfg p).2.2]

/-- Masking an already-masked pixel changes nothing: the pixel either became
fully transparent (and is then classified as background again, its alpha staying
0) or was left unchanged (and is classified the same way again). -/
theorem maskPixel_idem (cfg : BackgroundRemover) (p : Pixel) :
    maskPixel cfg (toRGBA (maskPixel cfg (toRGBA p))) = maskPixel cfg (toRGBA p) := by
  cases p with
  | rgb r g b =>
      by_cases hc : (decide (r ≤ cfg.threshold) && decide (g ≤ cfg.threshold) &&
          decide (b ≤ cfg.threshold)) = true <;>
        simp [maskPixel, toRGBA, setTransparent, BackgroundRemover.is_black_background, hc]
  | rgba r g b a =>
      by_cases ha : a = 0
      · simp [maskPixel, toRGBA, setTransparent, BackgroundRemover.is_black_background, ha]
      · by_cases hc : (decide (r ≤ cfg.threshold) && decide (g ≤ cfg.threshold) &&
            decide (b ≤ cfg.threshold)) = true <;>
          simp [maskPixel, toRGBA, setTransparent, BackgroundRemover.is_black_background,
            ha, hc]

/-- Claim C4: `transform` is idempotent — applying it twice with the same
configuration produces the same image as applying it once. -/
theorem transform_idempotent (cfg : BackgroundRemover) (img : List (List Pixel)) :
    cfg.transform (cfg.transform img) = cfg.transform img := by
  simp [BackgroundRemover.transform, applyAlphaMask, convertRGBA, List.map_map,
    Function.comp_def, maskPixel_idem]

/-- Claim C5: the `tolerance` configuration field has no observable effect —
classification and the whole image transform agree for any two tolerance values
sharing a threshold. -/
theorem tolerance_noninterference (T t1 t2 : Nat) (p : Pixel) (img : List (List Pixel)) :
    (BackgroundRemover.mk T t1).is_black_background p =
      (BackgroundRemover.mk T t2).is_black_background p ∧
    (BackgroundRemover.mk T t1).transform img = (BackgroundRemover.mk T t2).transform img :=
  ⟨rfl, rfl⟩

/-- Claim C3 fails as stated: with the default configuration, the pixel
`(100, 0, 0, 0)` has its first channel strictly above the threshold 30, yet
`is_black_background` returns true, because the pixel is already fully
transparent. -/
theorem classify_threshold_cex :
    (BackgroundRemover.mk 30 10).is_black_background (Pixel.rgba 100 0 0 0) = true ∧
      30 < 100 := by decide

/-- Claim C3 amended: for every pixel that is not already fully transparent
(3-channel, or 4-channel with nonzero alpha), `is_black_background` returns true
exactly when each of the first three channels is at most the threshold. -/
theorem classify_threshold_of_not_transparent (cfg : BackgroundRemover) (p : Pixel)
    (h : p.isFullyTransparent = false) :
    (cfg.is_black_background p = true ↔
      (p.r ≤ cfg.threshold ∧ p.g ≤ cfg.threshold ∧ p.b ≤ cfg.threshold)) := by
  cases p with
  | rgb r g b =>
      simp [BackgroundRemover.is_black_background, Pixel.r, Pixel.g, Pixel.b, and_assoc]
  | rgba r g b a =>
      simp only [Pixel.isFullyTransparent, decide_eq_false_iff_not] at h
      simp [BackgroundRemover.is_black_background, Pixel.r, Pixel.g, Pixel.b, h, and_assoc]

/-- Witness for the amended claim C3 at a concrete non-transparent pixel. -/
theorem classify_threshold_of_not_transparent_witness :
    (Pixel.rgb 10 20 30).isFullyTransparent = false ∧
    ((BackgroundRemover.mk 30 10).is_black_background (Pixel.rgb 10 20 30) = true ↔
      ((Pixel.rgb 10 20 30).r ≤ 30 ∧ (Pixel.rgb 10 20 30).g ≤ 30 ∧
        (Pixel.rgb 10 20 30).b ≤ 30)) :=
  ⟨by decide,
    classify_threshold_of_not_transparent (BackgroundRemover.mk 30 10)
      (Pixel.rgb 10 20 30) (by decide)⟩

/-- Uppercasing a string character by character, as Python's `str.upper()` does
on the ASCII extension strings used here. -/
def upperString (s : String) : String :=
  ⟨s.data.map Char.toUpper⟩

/-- Lowercasing a string character by character, as Python's `str.lower()`. -/
def lowerString (s : String) : String :=
  ⟨s.data.map Char.toLower⟩

/-- Whether a file name matches the glob pattern `*{ext}`: the glob is
case-sensitive, so this is an exact suffix test on the characters. -/
def matchesExt (ext : String) (name : String) : Bool :=
  List.isSuffixOf ext.data name.data

/-- The discovery loop of `batch_remove_background`: for each configured
extension, collect the files matching `*{ext}` and then those matching
`*{ext.upper()}`, extending one result list. -/
def discover (files : List String) (exts : List String) : List String :=
  exts.bind fun ext =>
    files.filter (fun f => matchesExt ext f) ++
      files.filter (fun f => matchesExt (upperString ext) f)

/-- Outcome of attempting one file inside the batch loop:
`ok`/`fail` are the two return values of `remove_black_background`, and `exn`
is an exception thrown by the path computation or directory creation inside the
loop body, caught by the `except` clause. -/
inductive ProcResult where
  | ok
  | fail
  | exn
deriving DecidableEq, Repr

/-- The statistics dictionary `{'total': …, 'success': …, 'failed': …}`. -/
structure BatchStats where
  total : Nat
  success : Nat
  failed : Nat
deriving DecidableEq, Repr

/-- Filesystem effects of one `batch_remove_background` run that the claims
talk about: creation of the output directory, and the attempt to process one
input file. -/
inductive Effect where
  | mkdirOutputRoot
  | processFile (path : String)
deriving DecidableEq, Repr

/-- The one fatal error of `batch_remove_background`: the `ValueError` raised
when the input directory does not exist. -/
inductive BatchError where
  | invalidInputRoot
deriving DecidableEq, Repr

/-- One iteration of the batch loop: on `ok` the `success` counter is
incremented, on `fail` or a caught exception the `failed` counter is; in every
case the file was attempted, which the trace records. -/
def processStep (proc : String → ProcResult) (acc : BatchStats × List Effect) (f : String) :
    BatchStats × List Effect :=
  match acc, proc f with
  | (s, effs), .ok => (⟨s.total, s.success + 1, s.failed⟩, effs ++ [Effect.processFile f])
  | (s, effs), .fail => (⟨s.total, s.success, s.failed + 1⟩, effs ++ [Effect.processFile f])
  | (s, effs), .exn => (⟨s.total, s.success, s.failed + 1⟩, effs ++ [Effect.processFile f])

/-- Number of files in a list whose processing returns `ok`. -/
def countOk (proc : String → ProcResult) : List String → Nat
  | [] => 0
  | f :: fs => (if proc f = ProcResult.ok then 1 else 0) + countOk proc fs

/-- Number of files in a list whose processing does not return `ok`. -/
def countFail (proc : String → ProcResult) : List String → Nat
  | [] => 0
  | f :: fs => (if proc f = ProcResult.ok then 0 else 1) + countFail proc fs

/-- `BackgroundRemover.batch_remove_background` over the abstract filesystem:
check that the input root exists (else raise), create the output directory,
glob the image files, return zero statistics if none matched, otherwise run the
batch loop over all of them. The effect trace lists the filesystem actions in
order. -/
def batch_remove_background (inputExists : Bool) (files : List String)
    (exts : List String) (proc : String → ProcResult) :
    Except BatchError BatchStats × List Effect :=
  if inputExists then
    let image_files := discover files exts
    if image_files.isEmpty then
      (Except.ok ⟨0, 0, 0⟩, [Effect.mkdirOutputRoot])
    else
      let r := image_files.foldl (processStep proc) (⟨image_files.length, 0, 0⟩,
        [Effect.mkdirOutputRoot])
      (Except.ok r.1, r.2)
  else
    (Except.error BatchError.invalidInputRoot, [])

/-- `BackgroundRemover.remove_black_background` at the `processOne` boundary:
`decoded` is the result of opening and decoding the input image, `encode` the
result of saving a transformed image; the body returns `True` on success and
the `except Exception` clause converts any failure into `False`. -/
def remove_black_background (cfg : BackgroundRemover)
    (decoded : Except String (List (List Pixel)))
    (encode : List (List Pixel) → Except String Unit) : Bool :=
  match decoded with
  | .error _ => false
  | .ok img =>
      match encode (cfg.transform img) with
      | .ok _ => true
      | .error _ => false

/-- Unfolding the batch loop: the `total` field is never touched, `success`
grows by the number of `ok` outcomes, `failed` by the number of other outcomes,
and the trace gains one processing record per file, in order. -/
theorem foldl_processStep (proc : String → ProcResult) (fs : List String)
    (s : BatchStats) (effs : List Effect) :
    fs.foldl (processStep proc) (s, effs) =
      (⟨s.total, s.success + countOk proc fs, s.failed + countFail proc fs⟩,
        effs ++ fs.map Effect.processFile) := by
  induction fs generalizing s effs with
  | nil => simp [countOk, countFail]
  | cons f fs ih =>
      cases hpf : proc f with
      | ok =>
          simp [List.foldl_cons, processStep, hpf, ih, countOk, countFail,
            Nat.add_assoc, Nat.add_comm 1 (countOk proc fs)]
      | fail =>
          simp [List.foldl_cons, processStep, hpf, ih, countOk, countFail,
            Nat.add_assoc, Nat.add_comm 1 (countFail proc fs)]
      | exn =>
          simp [List.foldl_cons, processStep, hpf, ih, countOk, countFail,
            Nat.add_assoc, Nat.add_comm 1 (countFail proc fs)]

/-- Every file lands in exactly one of the two counters. -/
theorem countOk_add_countFail (proc : String → ProcResult) (fs : List String) :
    countOk proc fs + countFail proc fs = fs.length := by
  induction fs with
  | nil => rfl
  | cons f fs ih =>
      by_cases hpf : proc f = ProcResult.ok <;> simp [countOk, countFail, hpf] <;> omega

/-- Claim C6: over an existing input root, the returned statistics have
`total` equal to the number of discovered files, `success` the number of files
whose processing succeeded, `failed` the number of the rest, and
`success + failed = total`. -/
theorem runBatch_counters (files exts : List String) (proc : String → ProcResult) :
    (batch_remove_background true files exts proc).1 =
      Except.ok ⟨(discover files exts).length, countOk proc (discover files exts),
        countFail proc (discover files exts)⟩ ∧
    countOk proc (discover files exts) + countFail proc (discover files exts) =
      (discover files exts).length := by
  refine ⟨?_, countOk_add_countFail proc (discover files exts)⟩
  unfold batch_remove_background
  by_cases h : (discover files exts).isEmpty
  · rw [List.isEmpty_iff] at h
    simp [h, countOk, countFail]
  · simp [h, foldl_processStep]

/-- Claim C8: `batch_remove_background` fails with the invalid-input-root error
exactly when the input root does not exist, and in that case it performs no
filesystem effect at all: the error is raised before the output directory is
created and before any file is processed. -/
theorem runBatch_invalid_input_root (inputExists : Bool) (files exts : List String)
    (proc : String → ProcResult) :
    ((batch_remove_background inputExists files exts proc).1 =
        Except.error BatchError.invalidInputRoot ↔ inputExists = false) ∧
    batch_remove_background false files exts proc =
      (Except.error BatchError.invalidInputRoot, []) := by
  refine ⟨?_, rfl⟩
  cases inputExists with
  | false => simp [batch_remove_background]
  | true =>
      by_cases h : (discover files exts).isEmpty <;>
        simp [batch_remove_background, h]

/-- Claim C9: a decode or encode failure is caught at the
`remove_black_background` boundary — it returns `True` exactly when decoding
and encoding both succeed, and `False` on any failure, never raising — and the
batch attempts every discovered file whatever the outcomes are: the effect
trace is always the output-directory creation followed by one processing record
per discovered file. -/
theorem processOne_catches_and_batch_completes (cfg : BackgroundRemover)
    (decoded : Except String (List (List Pixel)))
    (encode : List (List Pixel) → Except String Unit)
    (files exts : List String) (proc : String → ProcResult) :
    (remove_black_background cfg decoded encode = true ↔
      ∃ img, decoded = Except.ok img ∧ encode (cfg.transform img) = Except.ok ()) ∧
    (batch_remove_background true files exts proc).2 =
      Effect.mkdirOutputRoot :: (discover files exts).map Effect.processFile := by
  constructor
  · cases decoded with
    | error e => simp [remove_black_background]
    | ok img =>
        cases he : encode (cfg.transform img) with
        | error e => simp [remove_black_background, he]
        | ok u => simp [remove_black_background, he]
  · unfold batch_remove_background
    by_cases h : (discover files exts).isEmpty
    · rw [List.isEmpty_iff] at h
      simp [h]
    · simp [h, foldl_processStep]

/-- Claim C7 fails as stated: with one non-matching file, discovery is empty
and the zero statistics are returned, yet the effect trace shows the output
directory was created — `mkdir` runs before the glob, so the filesystem is
touched even when zero files match. -/
theorem runBatch_empty_mkdir_cex :
    discover ["readme.txt"] [".jpg"] = [] ∧
    batch_remove_background true ["readme.txt"] [".jpg"] (fun _ => ProcResult.ok) =
      (Except.ok ⟨0, 0, 0⟩, [Effect.mkdirOutputRoot]) ∧
    Effect.mkdirOutputRoot ∈
      (batch_remove_background true ["readme.txt"] [".jpg"] (fun _ => ProcResult.ok)).2 := by
  refine ⟨by decide, rfl, ?_⟩
  show Effect.mkdirOutputRoot ∈ [Effect.mkdirOutputRoot]
  simp

/-- Claim C7 amended: if zero files match the extension patterns, the run
returns the zero-valued statistics and processes no file, but it does create
the output directory (and nothing else) before discovering that no file
matches. -/
theorem runBatch_empty_result (files exts : List String) (proc : String → ProcResult)
    (h : discover files exts = []) :
    batch_remove_background true files exts proc =
      (Except.ok ⟨0, 0, 0⟩, [Effect.mkdirOutputRoot]) := by
  simp [batch_remove_background, h]

/-- Witness for the amended claim C7 on a concrete non-matching directory. -/
theorem runBatch_empty_result_witness :
    discover ["notes.md"] [".jpg", ".jpeg"] = [] ∧
    batch_remove_background true ["notes.md"] [".jpg", ".jpeg"] (fun _ => ProcResult.exn) =
      (Except.ok ⟨0, 0, 0⟩, [Effect.mkdirOutputRoot]) :=
  ⟨by decide,
    runBatch_empty_result ["notes.md"] [".jpg", ".jpeg"] (fun _ => ProcResult.exn) (by decide)⟩

/-- Claim C10 fails as stated: `image.Jpg` differs from `image.jpg` only by
letter case — lowercasing it yields a name matching the pattern — yet discovery
with pattern `.jpg` misses it, because the glob only tries the pattern as given
and its fully-uppercased form; moreover, with the pattern `.JPG` (equal to its
own uppercasing) a matching file is listed twice, not once. -/
theorem discover_case_cex :
    lowerString "image.Jpg" = "image.jpg" ∧
    matchesExt ".jpg" (lowerString "image.Jpg") = true ∧
    discover ["image.Jpg"] [".jpg"] = [] ∧
    discover ["a.JPG"] [".JPG"] = ["a.JPG", "a.JPG"] := by
  refine ⟨by decide, by decide, by decide, by decide⟩

/-- Claim C10 amended: a file is discovered exactly when its name ends with one
of the extension patterns exactly as given, or with the fully-uppercased form
of one of them; matching is not case-insensitive beyond those two variants. -/
theorem discover_membership (files exts : List String) (f : String) :
    f ∈ discover files exts ↔
      f ∈ files ∧ ∃ ext, ext ∈ exts ∧
        (matchesExt ext f = true ∨ matchesExt (upperString ext) f = true) := by
  unfold discover
  simp only [List.mem_bind, List.mem_append, List.mem_filter]
  constructor
  · rintro ⟨ext, hext, h | h⟩
    · exact ⟨h.1, ext, hext, Or.inl h.2⟩
    · exact ⟨h.1, ext, hext, Or.inr h.2⟩
  · rintro ⟨hf, ext, hext, h | h⟩
    · exact ⟨ext, hext, Or.inl ⟨hf, h⟩⟩
    · exact ⟨ext, hext, Or.inr ⟨hf, h⟩⟩
